import Mathlib

/-!
Verification of the agent-orchestration core of the `ai-notes` backend
(`src/backend/app/agent/*`, `src/backend/app/routers/agent.py`,
`src/backend/app/services/pending_actions.py`).

Shallow embedding conventions:
* Python values that flow through `json.loads` / tool arguments are modelled
  by the inductive `Json` type below.
* `json.loads` and `json.dumps` themselves belong to Python's standard
  library (out of scope); they are passed to the embedded functions as
  abstract parameters `loads : String -> Option Json` (`none` models a
  `JSONDecodeError`) and `dumps : Json -> String`.
* Python exceptions are modelled with `Except PyError _`: a function that
  can raise returns `Except.error e` where the original raises `e`; code
  paths under a `try/except` that swallow the exception are folded into the
  returned value, exactly as in the source.
* The remote chat-completion model is an opaque collaborator; its responses
  are universally quantified inputs of the embedded functions.
-/

namespace AiNotes

/-- A parsed JSON value (the result of Python's `json.loads`).  Object
fields are kept as an association list; `json.loads` never produces
duplicate keys, and lookup takes the first occurrence. -/
inductive Json where
  | null : Json
  | bool (b : Bool) : Json
  | num (n : Int) : Json
  | str (s : String) : Json
  | arr (elems : List Json) : Json
  | obj (fields : List (String × Json)) : Json

/-- Dictionary lookup on a JSON object's field list (`obj.get(key)`). -/
def jsonGet (fields : List (String × Json)) (key : String) : Option Json :=
  match fields with
  | [] => none
  | (k, v) :: rest => if k = key then some v else jsonGet rest key

/-! Python string primitives, re-implemented over `List Char` (the
corresponding core `String` functions are compiled externs that the kernel
cannot evaluate; witnesses must evaluate, so all embedded code uses these).
The whitespace set covers the characters that occur in chat-model output. -/

/-- Whitespace as recognized by Python's `str.strip()`. -/
def pyWhitespace (c : Char) : Bool :=
  c = ' ' || c = '\n' || c = '\t' || c = '\r'

/-- Python `s.strip()`. -/
def pyStrip (s : String) : String :=
  String.mk (((s.toList.dropWhile pyWhitespace).reverse.dropWhile pyWhitespace).reverse)

/-- Python `s.startswith(pre)`. -/
def pyStartsWith (s pre : String) : Bool :=
  pre.toList.isPrefixOf s.toList

/-- Python `s.endswith(suf)`. -/
def pyEndsWith (s suf : String) : Bool :=
  suf.toList.isSuffixOf s.toList

/-- Split a character list at every occurrence of `sep` (Python
`str.split(sep)` semantics: never returns an empty list, keeps empty
pieces). -/
def splitOnChar (sep : Char) : List Char → List (List Char)
  | [] => [[]]
  | c :: rest =>
    let r := splitOnChar sep rest
    if c = sep then [] :: r
    else
      match r with
      | [] => [[c]]
      | h :: t => (c :: h) :: t

/-- Python `s.split("\n")`. -/
def pySplitNl (s : String) : List String :=
  (splitOnChar '\n' s.toList).map String.mk

/-- Python exceptions that escape the embedded functions. -/
inductive PyError where
  | keyError (key : String) : PyError
  | validationError (detail : String) : PyError
  | valueError (detail : String) : PyError
  | typeError (detail : String) : PyError
  deriving DecidableEq, Repr

/-- The `IntentCategory` enum from `app/agent/intent_classifier.py`:
closed enumeration of NOTE, TASK, EVENT, UNKNOWN. -/
inductive IntentCategory where
  | note : IntentCategory
  | task : IntentCategory
  | event : IntentCategory
  | unknown : IntentCategory
  deriving DecidableEq, Repr

/-- The `.value` of an `IntentCategory` member (it is a `str` enum). -/
def IntentCategory.val : IntentCategory → String
  | .note => "note"
  | .task => "task"
  | .event => "event"
  | .unknown => "unknown"

/-- Lookup of an `IntentCategory` member by NAME, i.e. Python's
`IntentCategory[name]`; raises `KeyError` for anything that is not a
member name. -/
def intentOfName (name : String) : Except PyError IntentCategory :=
  if name = "NOTE" then .ok .note
  else if name = "TASK" then .ok .task
  else if name = "EVENT" then .ok .event
  else if name = "UNKNOWN" then .ok .unknown
  else .error (.keyError name)

/-! ### Intent classifier (`app/agent/intent_classifier.py`) -/

/-- One entry of `message["tool_calls"]` as read by `classify_intent`:
`fn.get("name", "")` and `fn.get("arguments", "{}")`.  The `arguments`
value is either a raw string (to be `json.loads`-ed) or an
already-parsed value (`isinstance(args_str, str)` is false). -/
structure RespToolCall where
  name : String
  arguments : String ⊕ Json

/-- The `response.get("message", response)` object: either not a dict
(logged, `UNKNOWN`) or a dict with a (possibly empty) `tool_calls` list. -/
inductive RespMessage where
  | notDict : RespMessage
  | dict (tool_calls : List RespToolCall) : RespMessage

/-- Pydantic validation of `ClassifyIntentParams` (`model_validate(args)`):
the input must be a mapping with an `intent` key whose value is one of the
literals `"note" | "task" | "event" | "unknown"`; anything else raises
`ValidationError`. -/
def validateClassifyParams (args : Json) : Except PyError String :=
  match args with
  | .obj fields =>
    match jsonGet fields "intent" with
    | some (.str s) =>
      if s = "note" ∨ s = "task" ∨ s = "event" ∨ s = "unknown" then .ok s
      else .error (.validationError ("intent: unexpected value \x27" ++ s ++ "\x27"))
    | some _ => .error (.validationError "intent: input should be a valid string")
    | none => .error (.validationError "intent: field required")
  | _ => .error (.validationError "input should be a valid dictionary")

/-- `IntentCategory(value)` — lookup by value; total on the four literals. -/
def intentOfValue (value : String) : Except PyError IntentCategory :=
  if value = "note" then .ok .note
  else if value = "task" then .ok .task
  else if value = "event" then .ok .event
  else if value = "unknown" then .ok .unknown
  else .error (.valueError ("\x27" ++ value ++ "\x27 is not a valid IntentCategory"))

/-- Embedding of `IntentClassifier.classify_intent` (lines 61-128), from the guard on
`user_input` through the handling of the model response.  The LLM round
trip itself (`chat_completion`) is the opaque collaborator producing
`resp`.  Note that `ClassifyIntentParams.model_validate(args)` at line 123
is executed OUTSIDE the `try` that starts at line 124, so a
`ValidationError` raised there propagates (`Except.error`). -/
def classifyIntent (loads : String → Option Json) (userInput : String)
    (resp : RespMessage) : Except PyError IntentCategory :=
  if userInput = "" ∨ pyStrip userInput = "" then .ok .unknown
  else
    match resp with
    | .notDict => .ok .unknown
    | .dict toolCalls =>
      match toolCalls with
      | [] => .ok .unknown
      | tc :: _ =>
        if tc.name ≠ "classify_intent" then .ok .unknown
        else
          -- args = json.loads(args_str) if isinstance(args_str, str) else args_str
          -- (JSONDecodeError is caught and yields UNKNOWN)
          match (match tc.arguments with
                 | .inl s => (loads s).map Except.ok |>.getD (.error ())
                 | .inr j => .ok j : Except Unit Json) with
          | .error () => .ok .unknown
          | .ok args =>
            match validateClassifyParams args with
            | .error e => .error e   -- uncaught: raised before the `try`
            | .ok intentStr =>
              -- try: return IntentCategory(parsed.intent) except ValueError: UNKNOWN
              match intentOfValue intentStr with
              | .ok cat => .ok cat
              | .error _ => .ok .unknown

/-! ### Dispatcher (`app/agent/dispatcher.py`) -/

/-- The three specialized executors the dispatcher can route to. -/
inductive ExecutorKind where
  | notes : ExecutorKind
  | task : ExecutorKind
  | event : ExecutorKind
  deriving DecidableEq, Repr

/-- Routing skeleton of `AgentDispatcher.process` (lines 33-88): which
executor a call is dispatched to, or which error is raised.  The body of
each `execute_turn` is opaque here; only the routing decision is
modelled.  Note the source checks `intent == IntentCategory.UNKNOWN`
BEFORE the `note_id is not None` override. -/
def dispatchProcess (intent : IntentCategory) (noteId : Option Int) :
    Except PyError ExecutorKind :=
  if intent = .unknown then
    .error (.valueError "UnknownIntentError")
  else if noteId.isSome then
    .ok .notes
  else
    match intent with
    | .note => .ok .notes
    | .task => .ok .task
    | .event => .ok .event
    | .unknown => .error (.valueError "UnknownIntentError")

/-! ### Stream reassembler (`app/agent/chat_executor.py` lines 90-102)

One logical tool call occupies one stream `index`; its fragments arrive in
order.  `stepFrag` is the body of the `elif chunk.get("type") == "tool_call"`
branch for a fixed index (`key = f"idx_{idx}"`): create the accumulator on
the first fragment (`{"id": tc_id or key, "name": name, "arguments": ""}`),
always append the arguments piece, overwrite the name with a non-empty
`name`, and overwrite the id with a `tc_id` that starts with `"call_"`. -/

/-- One streamed tool-call fragment as yielded by `chat_completion_stream`:
`chunk.get("id", "")`, `chunk.get("name", "")`, `chunk.get("arguments", "")`. -/
structure ToolCallFragment where
  id : String
  name : String
  arguments : String
  deriving DecidableEq

/-- The per-index accumulator `tool_calls_by_id[key]`. -/
structure ToolCallAcc where
  id : String
  name : String
  arguments : String
  deriving DecidableEq

/-- Process one fragment for the index whose dict key is `key`. -/
def stepFrag (key : String) (acc? : Option ToolCallAcc) (f : ToolCallFragment) :
    ToolCallAcc :=
  let a0 : ToolCallAcc :=
    match acc? with
    | some a => a
    | none => ⟨if f.id = "" then key else f.id, f.name, ""⟩
  let a1 : ToolCallAcc := { a0 with arguments := a0.arguments ++ f.arguments }
  let a2 : ToolCallAcc := if f.name = "" then a1 else { a1 with name := f.name }
  if f.id ≠ "" ∧ pyStartsWith f.id "call_" = true then { a2 with id := f.id } else a2

/-- Reassemble the fragment sequence of one stream index (dict key `key`). -/
def reassemble (key : String) (frags : List ToolCallFragment) : Option ToolCallAcc :=
  frags.foldl (fun acc? f => some (stepFrag key acc? f)) none

/-- Reassembly continued from an existing accumulator (the fold after the
first fragment has created the accumulator). -/
def reassembleFold (key : String) (a : ToolCallAcc) (frags : List ToolCallFragment) :
    ToolCallAcc :=
  frags.foldl (fun acc f => stepFrag key (some acc) f) a

/-- A logical tool call: the complete (id, name, arguments) triple. -/
structure LogicalToolCall where
  id : String
  name : String
  arguments : String

/-- Concatenation of a list of strings in order. -/
def concatStrings : List String → String
  | [] => ""
  | s :: rest => s ++ concatStrings rest

/-- The list `frags` is one way of delivering the logical call `c` as 1..N stream
fragments: the argument pieces concatenate (in arrival order) to `c`'s
arguments, and the name / provider call id are carried, whole, by at least
one fragment each (when non-empty), arbitrary fragments otherwise carrying
the empty marker. -/
def IsSplit (c : LogicalToolCall) (frags : List ToolCallFragment) : Prop :=
  frags ≠ [] ∧
  concatStrings (frags.map (·.arguments)) = c.arguments ∧
  (∀ f ∈ frags, f.name = "" ∨ f.name = c.name) ∧
  (c.name ≠ "" → ∃ f ∈ frags, f.name = c.name) ∧
  (∀ f ∈ frags, f.id = "" ∨ f.id = c.id) ∧
  (c.id ≠ "" → ∃ f ∈ frags, f.id = c.id)

/-- Delivery of `c` as a single fragment. -/
def singleFragment (c : LogicalToolCall) : ToolCallFragment :=
  ⟨c.id, c.name, c.arguments⟩

/-! ### Fallback call detector
(`BaseChatExecutor._try_parse_text_tool_call`, `app/agent/base_executor.py`
lines 50-89) -/

/-- First index at which `pat` occurs in `hay` (substring search). -/
def listFind (hay pat : List Char) : Option Nat :=
  match hay with
  | [] => if pat = [] then some 0 else none
  | c :: t => if pat.isPrefixOf (c :: t) then some 0 else (listFind t pat).map (· + 1)

/-- Python `s.find(pat, start)`; `none` models the `-1` result. -/
def pyFind (s pat : String) (start : Nat) : Option Nat :=
  (listFind (s.toList.drop start) pat.toList).map (· + start)

/-- Python `pat in s`. -/
def pyContains (s pat : String) : Bool :=
  (listFind s.toList pat.toList).isSome

/-- Python `s[a:b]` for `a ≤ b`. -/
def pySlice (s : String) (a b : Nat) : String :=
  String.mk ((s.toList.drop a).take (b - a))

/-- The recognized "tool call" tag names, in scan order. -/
def toolCallTags : List String := ["tool_call", "function-call", "tool_response"]

/-- The `for tag in (...)` loop of `_try_parse_text_tool_call`: on the first
tag whose opening and closing forms both occur, slice out the text between
them (when the closing tag occurs after the opening one) and strip it, then
break out of the loop. -/
def tagUnwrap : List String → String → String
  | [], s => s
  | tag :: rest, s =>
    let openTag := "<" ++ tag ++ ">"
    let closeTag := "</" ++ tag ++ ">"
    if pyContains s openTag ∧ pyContains s closeTag then
      let start := (pyFind s openTag 0).getD 0 + openTag.length
      match pyFind s closeTag start with
      | some e => pyStrip (pySlice s start e)
      | none => s
    else tagUnwrap rest s

/-- The fenced-code-block unwrapping step: if the text starts with ```` ``` ````,
drop the first line and, when the last line is (up to whitespace) a bare
closing fence, the last line as well. -/
def fenceUnwrap (s : String) : String :=
  if pyStartsWith s "```" then
    let lines := pySplitNl s
    if pyStartsWith (lines.headD "") "```" then
      let e := if pyStrip (lines.getLastD "") = "```" then lines.length - 1 else lines.length
      String.intercalate "\n" ((lines.take e).drop 1)
    else s
  else s

/-- Strip surrounding whitespace, then unwrap one tag layer and one fence
layer, exactly as `_try_parse_text_tool_call` preprocesses its input. -/
def unwrapDelims (content : String) : String :=
  fenceUnwrap (tagUnwrap toolCallTags (pyStrip content))

/-- The mapping applied to the `arguments` value of the detected object:
a JSON object is re-serialized (`json.dumps(..., ensure_ascii=False)`), a
string is used as-is, anything else (including an absent key) becomes `"{}"`. -/
def fallbackRawArgs (dumps : Json → String) (args? : Option Json) : String :=
  match args? with
  | some (.obj f) => dumps (.obj f)
  | some (.str s) => s
  | _ => "\x7b\x7d"

/-- The detected call `{"name": ..., "arguments": ..., "call_id": ...}`. -/
structure ParsedTextToolCall where
  name : String
  arguments : String
  call_id : String

/-- Embedding of `BaseChatExecutor._try_parse_text_tool_call` (lines 50-89). `tools` is
the executor's registered tool-id set (`self._tools`), `loads`/`dumps` the
JSON codec, `none` the Python `None` return. -/
def tryParseTextToolCall (tools : List String) (loads : String → Option Json)
    (dumps : Json → String) (content : String) : Option ParsedTextToolCall :=
  if content = "" ∨ pyStrip content = "" then none
  else
    let stripped := unwrapDelims content
    if pyStartsWith stripped "\x7b" = true ∧ pyEndsWith stripped "\x7d" = true then
      match loads stripped with
      | none => none
      | some (.obj fields) =>
        match jsonGet fields "name" with
        | some (.str name) =>
          if name = "" then none
          else if name ∈ tools then
            some ⟨name, fallbackRawArgs dumps (jsonGet fields "arguments"),
                  "fallback_" ++ name⟩
          else none
        | _ => none
      | some _ => none
    else none

/-! ### Tool sandbox (`BaseChatExecutor._execute_tool`,
`app/agent/base_executor.py` lines 91-144) -/

/-- Exceptions a tool implementation's `call` can raise, as
distinguished by the `except` clauses of `_execute_tool`.  The
`ClarificationNeeded` control-flow exception
(`app/agent/tools/request_clarification.py`) carries the question it was
constructed with (`str(exc)` is that question).  Any other exception is
modelled by an optional `body.detail` attribute (upstream API errors), its
type name and its message, the three things `_get_api_error_detail`
inspects. -/
inductive ToolException where
  | timeoutError : ToolException
  | typeError (detail : String) : ToolException
  | clarificationNeeded (question : String) : ToolException
  | otherError (bodyDetail : Option String) (typeName message : String) : ToolException

/-- Outcome of `await asyncio.wait_for(tool_def.instance.call(**kwargs), ...)`:
a returned value (a string, or not) or a raised exception. -/
inductive CallResult where
  | returns (value : String) : CallResult
  | returnsNonString : CallResult
  | raises (e : ToolException) : CallResult

/-- An entry of the executor's `self._tools` registry.  `validate_args`
is `tool_def.validate_args` (pydantic: returns the validated model or
raises `ValidationError`, whose rendering is the carried string);
`call` is the abstract behaviour of the bound implementation on the
validated arguments plus the merged `extra_context` kwargs. -/
structure ToolDefinition where
  timeout_seconds : Int
  validate_args : Json → Except String Json
  call : Json → List (String × Json) → CallResult

/-- Generic first-match association lookup (Python dict `.get`). -/
def alistGet {α : Type} (m : List (String × α)) (k : String) : Option α :=
  match m with
  | [] => none
  | (k', v) :: rest => if k' = k then some v else alistGet rest k

/-- The `_get_api_error_detail` helper (lines 32-37): prefer
`exc.body["detail"]`, else `f"{type(exc).__name__}: {exc}"`. -/
def getApiErrorDetail : ToolException → String
  | .clarificationNeeded q => "ClarificationNeeded: " ++ q
  | .otherError (some d) _ _ => d
  | .otherError none ty msg => ty ++ ": " ++ msg
  | .timeoutError => "TimeoutError: "
  | .typeError d => "TypeError: " ++ d

/-- Output truncation (lines 140-143): keep the first `int(cap * 0.7)` and
last `int(cap * 0.2)` characters around a marker naming the original
length.  Python computes the cut points with binary floating point
(5599 and 1600 for the default cap 8000); no claim touches the exact cut,
so they are modelled with integer arithmetic. -/
def truncateResult (cap : Nat) (result : String) : String :=
  let head := String.mk (result.toList.take (7 * cap / 10))
  let tail := String.mk (result.toList.drop (result.length - 2 * cap / 10))
  head ++ "\n\n... [TRIMMED " ++ toString result.length ++ " chars] ...\n\n" ++ tail

/-- Embedding of `BaseChatExecutor._execute_tool` (lines 91-144).
Returns `Except.error e` exactly where the Python raises `e` out of the
method (the fatal invariant violations); every handled failure becomes an
`Except.ok` textual result. -/
def executeTool (tools : List (String × ToolDefinition))
    (loads : String → Option Json) (maxToolOutputChars : Nat)
    (tool_name raw_args : String) (extra_context : List (String × Json)) :
    Except PyError String :=
  match alistGet tools tool_name with
  | none => .ok ("Error: tool \x27" ++ tool_name ++ "\x27 not found")
  | some tool_def =>
    -- args_dict = json.loads(raw_args) if raw_args.strip() else {}
    match (if pyStrip raw_args = "" then some (Json.obj []) else loads raw_args) with
    | none =>
      .ok ("Error: invalid JSON arguments for tool \x27" ++ tool_name
           ++ "\x27: Expecting value")
    | some args_dict =>
      match tool_def.validate_args args_dict with
      | .error exc =>
        .ok ("Error: tool \x27" ++ tool_name ++ "\x27 validation error: " ++ exc)
      | .ok validated =>
        let timeout := tool_def.timeout_seconds
        if timeout ≤ 0 then
          .error (.valueError ("Tool \x27" ++ tool_name
                               ++ "\x27 has invalid timeout_seconds=" ++ toString timeout))
        else
          match tool_def.call validated extra_context with
          | .raises .timeoutError =>
            .ok ("Error: tool \x27" ++ tool_name ++ "\x27 timed out after "
                 ++ toString timeout ++ "s")
          | .raises (.typeError exc) =>
            .ok ("Error: tool \x27" ++ tool_name ++ "\x27 argument error: " ++ exc)
          | .raises (.clarificationNeeded q) =>
            .ok ("Error executing " ++ tool_name ++ ": "
                 ++ getApiErrorDetail (.clarificationNeeded q))
          | .raises (.otherError b ty m) =>
            .ok ("Error executing " ++ tool_name ++ ": "
                 ++ getApiErrorDetail (.otherError b ty m))
          | .returnsNonString =>
            .error (.typeError ("Tool \x27" ++ tool_name ++ "\x27 returned non-string"))
          | .returns result =>
            if result.length > maxToolOutputChars then
              .ok (truncateResult maxToolOutputChars result)
            else .ok result

/-! ### Turn engine (`_stream_turn`, `app/agent/chat_executor.py` lines 48-180)

The remote model is the opaque collaborator: it is modelled as a function
`model : Nat → List StreamChunk` giving the chunk sequence the stream of
the k-th round (0-based) delivers.  Tool execution results are abstracted
as a total function `exec : String → String → String` of the tool name and
raw argument string — the `_execute_tool` error isolation that makes the
real call total on these tools is the subject of `executeTool` above.
The executor's tool registry (`TOOLS`, used both by the fallback detector
through `self._tools` and by the `if name not in TOOLS` skip) is the
parameter `tools`. -/

/-- One chunk yielded by `chat_completion_stream`: a text delta or a
tool-call fragment addressed by a stream index. -/
inductive StreamChunk where
  | contentDelta (delta : String) : StreamChunk
  | toolCall (index : Nat) (id name arguments : String) : StreamChunk

/-- Insert/update the accumulator for `key` in the insertion-ordered dict
`tool_calls_by_id`. -/
def upsertFrag (dict : List (String × ToolCallAcc)) (key : String)
    (f : ToolCallFragment) : List (String × ToolCallAcc) :=
  match dict with
  | [] => [(key, stepFrag key none f)]
  | (k, a) :: rest =>
    if k = key then (k, stepFrag key (some a) f) :: rest
    else (k, a) :: upsertFrag rest key f

/-- In-round accumulation state: `turn_content` and `tool_calls_by_id`. -/
structure RoundAcc where
  turnContent : String
  toolCalls : List (String × ToolCallAcc)

/-- The body of the `async for chunk in chat_completion_stream(...)` loop
(lines 85-102). -/
def processChunk (r : RoundAcc) : StreamChunk → RoundAcc
  | .contentDelta d => { r with turnContent := r.turnContent ++ d }
  | .toolCall idx id name args =>
    let key := "idx_" ++ toString idx
    { r with toolCalls := upsertFrag r.toolCalls key ⟨id, name, args⟩ }

/-- Accumulate a whole round's chunk stream. -/
def processRound (chunks : List StreamChunk) : RoundAcc :=
  chunks.foldl processChunk ⟨"", []⟩

/-- The round's text output. -/
def roundContent (chunks : List StreamChunk) : String :=
  (processRound chunks).turnContent

/-- The round's finalized `tool_calls_by_id`, after the fallback text
parse (lines 104-113): when the stream produced no structured tool call
and the text is non-blank, a detected text call is inserted under the
key `"fallback"`. -/
def roundToolCalls (tools : List String) (loads : String → Option Json)
    (dumps : Json → String) (chunks : List StreamChunk) :
    List (String × ToolCallAcc) :=
  let r := processRound chunks
  if r.toolCalls = [] ∧ pyStrip r.turnContent ≠ "" then
    match tryParseTextToolCall tools loads dumps r.turnContent with
    | some p => [("fallback", ⟨p.call_id, p.name, p.arguments⟩)]
    | none => []
  else r.toolCalls

/-- A tool call the round actually executed (it survived the
`name not in TOOLS` and JSON-parse skips), with the raw argument string
passed to `_execute_tool` and the textual result. -/
structure ExecutedCall where
  id : String
  name : String
  arguments : String
  result : String
  deriving DecidableEq

/-- The `for tc_key, tc in tool_calls_by_id.items()` execution loop
(lines 119-169): skip names outside `TOOLS`, substitute `"{}"`
(here `\x7b\x7d`) for empty arguments, skip entries whose arguments fail
JSON parsing (log and continue), execute the rest sequentially in
encounter order. -/
def execRound (tools : List String) (loads : String → Option Json)
    (exec : String → String → String) (tcs : List (String × ToolCallAcc)) :
    List ExecutedCall :=
  tcs.filterMap (fun kv =>
    let tc := kv.2
    let argsStr := if tc.arguments = "" then "\x7b\x7d" else tc.arguments
    if tc.name ∈ tools then
      if pyStrip argsStr = "" then some ⟨tc.id, tc.name, argsStr, exec tc.name argsStr⟩
      else
        match loads argsStr with
        | some _ => some ⟨tc.id, tc.name, argsStr, exec tc.name argsStr⟩
        | none => none
    else none)

/-- Conversation messages appended by the turn engine. -/
inductive ChatMsg where
  | assistant (content : String) (toolCalls : List (String × String × String)) : ChatMsg
  | tool (toolCallId : String) (content : String) : ChatMsg

/-- The two message-append statements of the `if executed_any` branch
(lines 171-175): one assistant message carrying the executed calls, then
one tool message per executed call. -/
def roundMessages (turnContent : String) (executed : List ExecutedCall) :
    List ChatMsg :=
  ChatMsg.assistant turnContent (executed.map (fun e => (e.id, e.name, e.arguments)))
    :: executed.map (fun e => ChatMsg.tool e.id e.result)

/-- State threaded through the `while iteration < max_iterations` loop. -/
structure TurnState where
  iteration : Nat
  fullContent : String
  messages : List ChatMsg

/-- The final `_internal_final` yield (line 180) plus the number of model
calls the loop made. -/
structure TurnFinal where
  content : String
  toolCallsSaved : Option (List (String × String))
  modelCalls : Nat
  messages : List ChatMsg

/-- The `while iteration < max_iterations` loop of `_stream_turn`,
with `fuel = max_iterations - iteration` remaining round budget.  Each
recursive unfolding is one `Requesting` round (one `chat_completion_stream`
call).  A round that executed at least one tool call loops; a round that
executed none stores the round's (un-executed) tool-call intents in
`tool_calls_saved` and breaks. -/
def streamTurnLoop (model : Nat → List StreamChunk) (tools : List String)
    (loads : String → Option Json) (dumps : Json → String)
    (exec : String → String → String) :
    Nat → TurnState → TurnFinal
  | 0, st => ⟨st.fullContent, none, st.iteration, st.messages⟩
  | fuel + 1, st =>
    let chunks := model st.iteration
    let turnContent := roundContent chunks
    let tcs := roundToolCalls tools loads dumps chunks
    let executed := execRound tools loads exec tcs
    let fullContent := st.fullContent ++ turnContent
    if executed.isEmpty then
      ⟨fullContent, some (tcs.map (fun kv => (kv.2.name, kv.2.arguments))),
       st.iteration + 1, st.messages⟩
    else
      streamTurnLoop model tools loads dumps exec fuel
        ⟨st.iteration + 1, fullContent, st.messages ++ roundMessages turnContent executed⟩

/-- Embedding of `_stream_turn` (lines 48-180): run the loop from iteration
0 with empty accumulated content. -/
def streamTurn (model : Nat → List StreamChunk) (tools : List String)
    (loads : String → Option Json) (dumps : Json → String)
    (exec : String → String → String) (maxIterations : Nat) : TurnFinal :=
  streamTurnLoop model tools loads dumps exec maxIterations ⟨0, "", []⟩

/-- The chat executor's registered tool ids (`TOOLS`, lines 29-33). -/
def chatTools : List String := ["search_notes", "get_notes_tree", "read_notes"]

/-! ### Event bridge (`_stream_generator`, `app/routers/agent.py` lines 48-155)

The producer (`run_agent`) writes `(phase, data)` pairs into an asyncio
FIFO queue and, in its `finally`, the `("_end", ...)` sentinel; on an
unhandled exception it records `error_msg` before the sentinel is
enqueued.  The consumer loop dequeues in FIFO order, serializes each item
to a wire event, and breaks on the sentinel; only after the loop (and the
task cleanup) does it emit the final error event.  Since the queue is
FIFO and the consumer blocks until the sentinel arrives, the wire output
is a pure function of the enqueued sequence and `error_msg`, which is how
it is modelled (the `data` payload is kept opaque as a string). -/

/-- A serialized SSE event of the live progress stream. -/
inductive WireEvent where
  | done (data : String) : WireEvent
  | clarification (data : String) : WireEvent
  | status (phase data : String) : WireEvent
  | error (message : String) : WireEvent
  deriving DecidableEq

/-- Serialization of one dequeued `(phase, data)` pair (lines 138-143). -/
def wireOf (phase data : String) : WireEvent :=
  if phase = "done" then .done data
  else if phase = "clarification_request" then .clarification data
  else .status phase data

/-- The consumer loop (lines 134-145): drain the FIFO queue, break on the
`"_end"` sentinel. -/
def consumeQueue : List (String × String) → List WireEvent
  | [] => []
  | (phase, d) :: rest =>
    if phase = "_end" then [] else wireOf phase d :: consumeQueue rest

/-- The full wire output of `_stream_generator` given the queue content and
the producer's recorded `error_msg`: the drained events, then (lines
153-155) the single final error event when the background task raised. -/
def streamGeneratorOutput (queue : List (String × String))
    (errorMsg : Option String) : List WireEvent :=
  consumeQueue queue ++ (match errorMsg with
    | some m => [WireEvent.error m]
    | none => [])

/-- Queue content produced by a `run_agent` run that raised after
enqueuing `progress`: the progress events, then the sentinel from the
`finally` block (line 129). -/
def failedRunQueue (progress : List (String × String)) : List (String × String) :=
  progress ++ [("_end", "")]

/-! ### Pending-clarification protocol (`run_agent`, `app/routers/agent.py`
lines 68-129, with `app/services/pending_actions.py`) -/

/-- The `PendingAction` dataclass.  The opaque `context` bag is modelled
as a string-valued dict: an association list where the FIRST occurrence
of a key wins (so prepending models `d[k] = v` and list concatenation
`later ++ base` models `{**base, **later}`). -/
structure PendingAction where
  tool : String
  params : Json
  awaiting : String
  context : List (String × String)

/-- First-wins dict lookup on a context bag. -/
def ctxGet : List (String × String) → String → Option String
  | [], _ => none
  | (k, v) :: rest, key => if k = key then some v else ctxGet rest key

/-- Python `d.get(key, default)`. -/
def ctxGetD (ctx : List (String × String)) (key default : String) : String :=
  (ctxGet ctx key).getD default

/-- The `INTENT_LABELS` dict of `_stream_generator` (lines 62-66): it has
entries for NOTE, TASK and EVENT only. -/
def intentLabels : IntentCategory → Option String
  | .note => some "Заметка"
  | .task => some "Задача"
  | .event => some "Событие"
  | .unknown => none

/-- The data of a raised `ClarificationNeeded` exception. -/
structure ClarificationExc where
  question : String
  tool : String
  params : Json
  context : List (String × String)

/-- The `PendingAction` persisted by the `except ClarificationNeeded`
handler (lines 101-111).  Its context is the dict literal
`original_input = user_input, intent = INTENT_LABELS.get(IntentCategory.NOTE, "NOTE"), **e.context`
— note the `intent` value is the hard-coded NOTE label, independent of the
classified intent. -/
def pendingFromClarification (userInput : String) (e : ClarificationExc) :
    PendingAction :=
  { tool := e.tool
    params := e.params
    awaiting := "clarification"
    context := e.context ++
      [("original_input", userInput),
       ("intent", (intentLabels .note).getD "NOTE")] }

/-- Observable actions of one `run_agent` invocation, in program order. -/
inductive AgentAction where
  | mergeContext (key value : String) : AgentAction
  | deletePending : AgentAction
  | enqueue (phase : String) : AgentAction
  | classifyCall : AgentAction
  | dispatch (intent : IntentCategory) : AgentAction
  | catchException (e : PyError) : AgentAction
  deriving DecidableEq

/-- The `if pending:` resume branch of `run_agent` (lines 71-85), as its
ordered action trace: merge the new input into the context under the
reserved key, delete the pending record, enqueue the `resuming` status,
then evaluate `IntentCategory[pending.context.get("intent", "NOTE")]` —
a lookup by enum member NAME.  On success the dispatcher runs and `done`
is enqueued; a raised `KeyError` is caught by the generic handler (lines
121-127, recording `error_msg`), and the `finally` enqueues the sentinel
either way. -/
def resumeActions (pending : PendingAction) (userInput : String) :
    List AgentAction :=
  let ctx := ("clarification_response", userInput) :: pending.context
  [.mergeContext "clarification_response" userInput, .deletePending,
   .enqueue "resuming"] ++
  (match intentOfName (ctxGetD ctx "intent" "NOTE") with
   | .ok i => [.dispatch i, .enqueue "done", .enqueue "_end"]
   | .error e => [.catchException e, .enqueue "_end"])

/-- Number of `IntentClassifier.classify_intent` calls in a trace. -/
def countClassifyCalls (actions : List AgentAction) : Nat :=
  actions.countP (fun a => a = .classifyCall)

/-- The intents a trace dispatched. -/
def dispatchedIntents (actions : List AgentAction) : List IntentCategory :=
  actions.filterMap (fun a => match a with
    | .dispatch i => some i
    | _ => none)

/-! ### Concrete instances used by closed theorems and witnesses -/

/-- Concrete `json.loads` fragment for the C1 failing input: the model's
tool call carries the valid-JSON arguments string with an out-of-enum
intent value. -/
def bananaLoads : String → Option Json := fun s =>
  if s = "\x7b\"intent\": \"banana\"\x7d" then some (.obj [("intent", .str "banana")])
  else none

/-- The C1 failing model response: the classification tool IS called, with
syntactically valid JSON arguments whose `intent` value lies outside the
enum. -/
def bananaResp : RespMessage :=
  .dict [⟨"classify_intent", Sum.inl "\x7b\"intent\": \"banana\"\x7d"⟩]

/-- The `ClarificationNeeded` exception used as the C2 failing input (the
default empty context of `request_clarification`). -/
def clarifExc : ClarificationExc :=
  ⟨"Какую заметку дополнить?", "append_to_note", Json.obj [], []⟩

/-- A tool definition whose implementation raises `ClarificationNeeded`. -/
def clarifToolDef : ToolDefinition :=
  ⟨30, fun j => .ok j, fun _ _ => .raises (.clarificationNeeded "Какая папка?")⟩

/-- A tool definition whose execution exceeds the timeout
(`asyncio.TimeoutError`). -/
def timeoutToolDef : ToolDefinition :=
  ⟨30, fun j => .ok j, fun _ _ => .raises (.timeoutError)⟩

/-- A tool definition whose implementation raises a `TypeError`. -/
def typeErrToolDef : ToolDefinition :=
  ⟨30, fun j => .ok j, fun _ _ => .raises (.typeError "boom")⟩

/-- A model that streams a single complete `search_notes` tool call on
every round. -/
def capModel : Nat → List StreamChunk :=
  fun _ => [.toolCall 0 "call_1" "search_notes" "\x7b\x7d"]

/-- Concrete `json.loads` parsing only the empty object. -/
def capLoads : String → Option Json :=
  fun s => if s = "\x7b\x7d" then some (.obj []) else none

/-- Concrete `json.dumps`. -/
def capDumps : Json → String := fun _ => "\x7b\x7d"

/-- Concrete tool-execution results. -/
def capExec : String → String → String := fun _ _ => "[]"

/-- A logical tool call whose provider id is vLLM-style (no `"call_"`
prefix). -/
def lateIdCall : LogicalToolCall :=
  ⟨"chatcmpl-tool-7", "search_notes", "\x7b\x7d"⟩

/-- A split of `lateIdCall` in which the provider id arrives only on the
second fragment. -/
def lateIdFrags : List ToolCallFragment :=
  [⟨"", "search_notes", "\x7b\x7d"⟩, ⟨"chatcmpl-tool-7", "", ""⟩]

/-- A logical tool call with an OpenAI-style `"call_"`-prefixed id. -/
def okCall : LogicalToolCall :=
  ⟨"call_42", "search_notes", "\x7b\"exact_queries\": []\x7d"⟩

/-- A two-fragment split of `okCall`: the arguments are cut mid-string and
the name and id arrive on the second fragment. -/
def okFrags : List ToolCallFragment :=
  [⟨"", "", "\x7b\"exact"⟩, ⟨"call_42", "search_notes", "_queries\": []\x7d"⟩]

/-! ## Theorems -/

/-- C8: the dispatcher rejects UNKNOWN before everything else — including
before the note-context override, so the claim's "always route to Notes
when a note context is present regardless of intent" holds only for the
three non-UNKNOWN intents (see the counterexample); otherwise note context
forces the Notes executor, and without note context routing follows the
intent. -/
theorem C8_dispatch_routing (intent : IntentCategory) (noteId : Option Int) :
    (intent = .unknown →
      dispatchProcess intent noteId = .error (.valueError "UnknownIntentError")) ∧
    (intent ≠ .unknown → noteId.isSome = true →
      dispatchProcess intent noteId = .ok .notes) ∧
    (dispatchProcess .note none = .ok .notes) ∧
    (dispatchProcess .task none = .ok .task) ∧
    (dispatchProcess .event none = .ok .event) := by
  refine ⟨fun h => ?_, fun h h' => ?_, rfl, rfl, rfl⟩
  · subst h; rfl
  · unfold dispatchProcess
    rw [if_neg h, if_pos h']

/-- C8 witness: concrete instances of the routing facts. -/
theorem C8_dispatch_routing_witness :
    dispatchProcess .unknown none = .error (.valueError "UnknownIntentError") ∧
    dispatchProcess .task (some 2) = .ok .notes :=
  ⟨(C8_dispatch_routing .unknown none).1 rfl,
   (C8_dispatch_routing .task (some 2)).2.1 (by simp) rfl⟩

/-- C8 counterexample: with a note context present and intent UNKNOWN the
dispatcher raises `UnknownIntentError` instead of routing to the Notes
executor — the UNKNOWN check at line 45 precedes the `note_id` override at
line 50, contradicting the claim's "always route to Notes regardless of
the classified intent". -/
theorem C8_dispatch_note_ctx_unknown :
    dispatchProcess .unknown (some 1) = .error (.valueError "UnknownIntentError") ∧
    dispatchProcess .unknown (some 1) ≠ .ok .notes := by
  refine ⟨rfl, fun h => ?_⟩
  rw [show dispatchProcess .unknown (some 1)
        = .error (.valueError "UnknownIntentError") from rfl] at h
  exact Except.noConfusion h

/-- C1: the claim says an enum-外 (out-of-enum) intent value yields
`UNKNOWN` and `classify_intent` never raises; on the code,
`ClassifyIntentParams.model_validate(args)` at line 123 sits OUTSIDE the
`try` that starts at line 124, so the pydantic `ValidationError` raised for
the out-of-enum value `"banana"` propagates out of `classify_intent`
(the `except ValueError` at lines 126-128, meant to return `UNKNOWN`, is
unreachable for it). -/
theorem C1_classify_raises_on_out_of_enum :
    classifyIntent bananaLoads "привет" bananaResp
      = .error (.validationError "intent: unexpected value \x27banana\x27") := by
  rfl

/-- C2: resuming the pending action that `run_agent` itself persisted.  The
parts of the claim about merging under the reserved key, deleting before
re-dispatch and zero classification calls hold, but the re-dispatch never
happens: the stored `context["intent"]` is the hard-coded NOTE label
`"Заметка"` (line 109) — not the originally classified intent — and
`IntentCategory["Заметка"]` (line 77) raises `KeyError`, which the generic
handler turns into an error event.  The trace below shows the whole
resume: merge, delete, `resuming` status, caught `KeyError`, sentinel — no
dispatch, no classification. -/
theorem C2_resume_keyerror :
    resumeActions (pendingFromClarification "запиши мысль" clarifExc) "вторая"
      = [.mergeContext "clarification_response" "вторая", .deletePending,
         .enqueue "resuming", .catchException (.keyError "Заметка"),
         .enqueue "_end"] ∧
    countClassifyCalls
      (resumeActions (pendingFromClarification "запиши мысль" clarifExc) "вторая") = 0 ∧
    dispatchedIntents
      (resumeActions (pendingFromClarification "запиши мысль" clarifExc) "вторая") = [] := by
  refine ⟨rfl, rfl, rfl⟩

/-- C9: when the background `run_agent` task raises after enqueuing a
sequence of progress events, the wire output is exactly those events, in
emission order, followed by the single error event — every queued progress
event is flushed before the failure is reported, and the error event is
the last event of the stream. -/
theorem C9_progress_before_error (progress : List (String × String)) (m : String)
    (h : ∀ p ∈ progress, p.1 ≠ "_end") :
    streamGeneratorOutput (failedRunQueue progress) (some m)
      = progress.map (fun p => wireOf p.1 p.2) ++ [WireEvent.error m] := by
  induction progress with
  | nil => rfl
  | cons hd tl ih =>
    obtain ⟨ph, d⟩ := hd
    have hph : ph ≠ "_end" := h (ph, d) (List.mem_cons_self _ _)
    have htl : ∀ p ∈ tl, p.1 ≠ "_end" := fun p hp => h p (List.mem_cons_of_mem _ hp)
    simp only [streamGeneratorOutput, failedRunQueue, List.cons_append,
      consumeQueue, if_neg hph, List.map_cons, List.append_eq] at *
    rw [← ih htl]

/-- C9 witness: a concrete failing run with two progress events. -/
theorem C9_progress_before_error_witness :
    streamGeneratorOutput
        (failedRunQueue [("classifying_intent", "a"), ("intent_detected", "b")])
        (some "boom")
      = [WireEvent.status "classifying_intent" "a",
         WireEvent.status "intent_detected" "b", WireEvent.error "boom"] := by
  rw [C9_progress_before_error [("classifying_intent", "a"), ("intent_detected", "b")]
        "boom" (by decide)]
  rfl

/-- C10: a `ClarificationNeeded` raised inside a sandboxed tool
implementation is caught by the generic `except Exception` handler of
`_execute_tool` (lines 130-136) and becomes an ordinary
`"Error executing <id>: ..."` textual result (a normal return, `Except.ok`),
so the pending-clarification control-flow signal can never propagate out of
a sandboxed tool execution to the `except ClarificationNeeded` handler in
`run_agent` that persists a `PendingAction`. -/
theorem C10_clarification_cannot_escape
    (tools : List (String × ToolDefinition)) (loads : String → Option Json)
    (cap : Nat) (name rawArgs : String) (ctx : List (String × Json))
    (td : ToolDefinition) (j v : Json) (q : String)
    (hfind : alistGet tools name = some td)
    (hparse : (if pyStrip rawArgs = "" then some (Json.obj []) else loads rawArgs)
              = some j)
    (hval : td.validate_args j = .ok v)
    (htime : 0 < td.timeout_seconds)
    (hcall : td.call v ctx = .raises (.clarificationNeeded q)) :
    executeTool tools loads cap name rawArgs ctx
      = .ok ("Error executing " ++ name ++ ": "
             ++ getApiErrorDetail (.clarificationNeeded q)) := by
  have hnle : ¬ td.timeout_seconds ≤ 0 := by omega
  simp only [executeTool, hfind, hparse, hval, hcall, if_neg hnle]

/-- C10 witness: a concrete sandboxed execution whose implementation raises
`ClarificationNeeded` returns the error text normally. -/
theorem C10_clarification_cannot_escape_witness :
    executeTool [("append_to_note", clarifToolDef)] (fun _ => some (.obj []))
        8000 "append_to_note" "\x7b\x7d" []
      = .ok ("Error executing append_to_note: ClarificationNeeded: Какая папка?") :=
  C10_clarification_cannot_escape [("append_to_note", clarifToolDef)]
    (fun _ => some (.obj [])) 8000 "append_to_note" "\x7b\x7d" []
    clarifToolDef (.obj []) (.obj []) "Какая папка?"
    rfl rfl rfl (by decide) rfl

/-- C4 (amended): the failure mapping of `_execute_tool`.  Unknown tool,
malformed JSON arguments, schema-validation failure and timeout map to the
claimed texts, and with a positive timeout no exception escapes for any
raising or string-returning implementation; but — amending the claim — an
implementation raising `TypeError` is intercepted by the dedicated
`except TypeError` clause (line 128) and yields
`"Error: tool '<id>' argument error: <detail>"`, not
`"Error executing <id>: ..."`; every other implementation exception yields
the claimed `"Error executing <id>: <short detail>"`. -/
theorem C4_sandbox_failure_mapping
    (tools : List (String × ToolDefinition)) (loads : String → Option Json)
    (cap : Nat) (name rawArgs : String) (ctx : List (String × Json))
    (td : ToolDefinition) (j v : Json) (e : ToolException) (s d : String) :
    (alistGet tools name = none →
      executeTool tools loads cap name rawArgs ctx
        = .ok ("Error: tool \x27" ++ name ++ "\x27 not found")) ∧
    (alistGet tools name = some td → pyStrip rawArgs ≠ "" → loads rawArgs = none →
      executeTool tools loads cap name rawArgs ctx
        = .ok ("Error: invalid JSON arguments for tool \x27" ++ name
               ++ "\x27: Expecting value")) ∧
    (alistGet tools name = some td →
      (if pyStrip rawArgs = "" then some (Json.obj []) else loads rawArgs) = some j →
      td.validate_args j = .error d →
      executeTool tools loads cap name rawArgs ctx
        = .ok ("Error: tool \x27" ++ name ++ "\x27 validation error: " ++ d)) ∧
    (alistGet tools name = some td →
      (if pyStrip rawArgs = "" then some (Json.obj []) else loads rawArgs) = some j →
      td.validate_args j = .ok v → 0 < td.timeout_seconds →
      td.call v ctx = .raises e →
      executeTool tools loads cap name rawArgs ctx
        = .ok (match e with
          | .timeoutError =>
            "Error: tool \x27" ++ name ++ "\x27 timed out after "
              ++ toString td.timeout_seconds ++ "s"
          | .typeError exc =>
            "Error: tool \x27" ++ name ++ "\x27 argument error: " ++ exc
          | _ => "Error executing " ++ name ++ ": " ++ getApiErrorDetail e)) ∧
    (alistGet tools name = some td →
      (if pyStrip rawArgs = "" then some (Json.obj []) else loads rawArgs) = some j →
      td.validate_args j = .ok v → 0 < td.timeout_seconds →
      td.call v ctx = .returns s →
      executeTool tools loads cap name rawArgs ctx
        = .ok (if s.length > cap then truncateResult cap s else s)) := by
  refine ⟨fun h1 => ?_, fun h1 h2 h3 => ?_, fun h1 h2 h3 => ?_,
          fun h1 h2 h3 h4 h5 => ?_, fun h1 h2 h3 h4 h5 => ?_⟩
  · simp only [executeTool, h1]
  · simp only [executeTool, h1, if_neg h2, h3]
  · simp only [executeTool, h1, h2, h3]
  · have hnle : ¬ td.timeout_seconds ≤ 0 := by omega
    cases e <;> simp only [executeTool, h1, h2, h3, h5, if_neg hnle]
  · have hnle : ¬ td.timeout_seconds ≤ 0 := by omega
    simp only [executeTool, h1, h2, h3, h5, if_neg hnle]
    split <;> rfl

/-- C4 witness: a concrete timed-out execution yields the claimed text. -/
theorem C4_sandbox_failure_mapping_witness :
    executeTool [("search_notes", timeoutToolDef)] (fun _ => some (.obj []))
        8000 "search_notes" "\x7b\x7d" []
      = .ok "Error: tool \x27search_notes\x27 timed out after 30s" :=
  (C4_sandbox_failure_mapping [("search_notes", timeoutToolDef)]
      (fun _ => some (.obj [])) 8000 "search_notes" "\x7b\x7d" []
      timeoutToolDef (.obj []) (.obj []) .timeoutError "" "").2.2.2.1
    rfl rfl rfl (by decide) rfl

/-- C4 counterexample: an implementation exception of type `TypeError` is
NOT mapped to the claimed `"Error executing <id>: <short detail>"` text —
the dedicated `except TypeError` clause (line 128) yields the
`"argument error"` text instead (no exception escapes either way). -/
theorem C4_typeerror_not_error_executing :
    executeTool [("search_notes", typeErrToolDef)] (fun _ => some (.obj []))
        8000 "search_notes" "\x7b\x7d" []
      = .ok "Error: tool \x27search_notes\x27 argument error: boom" ∧
    pyStartsWith "Error: tool \x27search_notes\x27 argument error: boom"
        "Error executing" = false :=
  ⟨rfl, rfl⟩

/-- Helper: the turn-engine loop makes at most `fuel` further model calls. -/
theorem streamTurnLoop_calls_le (model : Nat → List StreamChunk)
    (tools : List String) (loads : String → Option Json) (dumps : Json → String)
    (exec : String → String → String) :
    ∀ (fuel : Nat) (st : TurnState),
      (streamTurnLoop model tools loads dumps exec fuel st).modelCalls
        ≤ st.iteration + fuel := by
  intro fuel
  induction fuel with
  | zero => intro st; simp [streamTurnLoop]
  | succ n ih =>
    intro st
    rw [streamTurnLoop]
    split
    · simp only
      omega
    · exact le_trans (ih _) (by simp only; omega)

/-- C6: for every `max_iterations = N ≥ 1` and every sequence of model
responses — including ones requesting a tool call on every round — the
`_stream_turn` loop makes at most N model calls (`Requesting` rounds); the
loop variable `max_iterations - iteration` strictly decreases each round,
so there is no unbounded path (the embedding is total by that measure). -/
theorem C6_turn_loop_bounded (model : Nat → List StreamChunk)
    (tools : List String) (loads : String → Option Json) (dumps : Json → String)
    (exec : String → String → String) (N : Nat) (h : 1 ≤ N) :
    (streamTurn model tools loads dumps exec N).modelCalls ≤ N := by
  have hb := streamTurnLoop_calls_le model tools loads dumps exec N ⟨0, "", []⟩
  simpa [streamTurn] using hb

/-- C6 witness: a concrete bound instance. -/
theorem C6_turn_loop_bounded_witness :
    1 ≤ 2 ∧ (streamTurn (fun _ => [StreamChunk.toolCall 0 "call_1" "search_notes" "\x7b\x7d"])
        chatTools (fun _ => some (.obj [])) (fun _ => "\x7b\x7d") (fun _ _ => "[]")
        2).modelCalls ≤ 2 :=
  ⟨by omega,
   C6_turn_loop_bounded (fun _ => [StreamChunk.toolCall 0 "call_1" "search_notes" "\x7b\x7d"])
     chatTools (fun _ => some (.obj [])) (fun _ => "\x7b\x7d") (fun _ _ => "[]") 2 (by omega)⟩

/-- Helper: appending the empty string is the identity. -/
theorem strAppendEmpty (s : String) : s ++ "" = s := by
  cases s with
  | mk data => exact congrArg String.mk (List.append_nil data)

/-- Helper: prepending the empty string is the identity. -/
theorem strEmptyAppend (s : String) : "" ++ s = s := rfl

/-- Helper: when every remaining round executes at least one tool call, the
loop consumes its whole fuel budget, leaves `tool_calls_saved` as `None`
(its initial value, line 59 — the only assignment is on the no-execution
break path, line 177), and accumulates every round's text. -/
theorem streamTurnLoop_all_executed (model : Nat → List StreamChunk)
    (tools : List String) (loads : String → Option Json) (dumps : Json → String)
    (exec : String → String → String) :
    ∀ (fuel : Nat) (st : TurnState),
      (∀ k, st.iteration ≤ k → k < st.iteration + fuel →
        execRound tools loads exec (roundToolCalls tools loads dumps (model k)) ≠ []) →
      (streamTurnLoop model tools loads dumps exec fuel st).toolCallsSaved = none ∧
      (streamTurnLoop model tools loads dumps exec fuel st).modelCalls
        = st.iteration + fuel ∧
      (streamTurnLoop model tools loads dumps exec fuel st).content
        = st.fullContent ++ concatStrings
            ((List.range' st.iteration fuel).map (fun k => roundContent (model k))) := by
  intro fuel
  induction fuel with
  | zero =>
    intro st hexec
    refine ⟨rfl, rfl, ?_⟩
    exact (strAppendEmpty st.fullContent).symm
  | succ n ih =>
    intro st hexec
    have hne : execRound tools loads exec
        (roundToolCalls tools loads dumps (model st.iteration)) ≠ [] :=
      hexec st.iteration (le_refl _) (by omega)
    have hbool : (execRound tools loads exec
        (roundToolCalls tools loads dumps (model st.iteration))).isEmpty = false := by
      simpa [List.isEmpty_iff] using hne
    rw [streamTurnLoop]
    simp only [hbool, Bool.false_eq_true, if_false]
    have harg : ∀ k, st.iteration + 1 ≤ k → k < st.iteration + 1 + n →
        execRound tools loads exec (roundToolCalls tools loads dumps (model k)) ≠ [] :=
      fun k hk1 hk2 => hexec k (by omega) (by omega)
    have hrec := ih ⟨st.iteration + 1,
        st.fullContent ++ roundContent (model st.iteration),
        st.messages ++ roundMessages (roundContent (model st.iteration))
          (execRound tools loads exec (roundToolCalls tools loads dumps (model st.iteration)))⟩
      harg
    have h21 : (streamTurnLoop model tools loads dumps exec n
        ⟨st.iteration + 1,
         st.fullContent ++ roundContent (model st.iteration),
         st.messages ++ roundMessages (roundContent (model st.iteration))
           (execRound tools loads exec (roundToolCalls tools loads dumps (model st.iteration)))⟩).modelCalls
        = st.iteration + 1 + n := hrec.2.1
    have h22 : (streamTurnLoop model tools loads dumps exec n
        ⟨st.iteration + 1,
         st.fullContent ++ roundContent (model st.iteration),
         st.messages ++ roundMessages (roundContent (model st.iteration))
           (execRound tools loads exec (roundToolCalls tools loads dumps (model st.iteration)))⟩).content
        = (st.fullContent ++ roundContent (model st.iteration)) ++ concatStrings
            ((List.range' (st.iteration + 1) n).map (fun k => roundContent (model k)))
      := hrec.2.2
    refine ⟨hrec.1, by rw [h21]; omega, ?_⟩
    rw [h22, String.append_assoc]
    rfl

/-- C3 (amended): when `_stream_turn` stops because `max_iterations = N`
was exhausted — the last round (like every round) still executed tool
calls — the loop stops without raising, the accumulated text of all rounds
is returned as the turn's answer, exactly N model calls were made, and
`tool_calls_saved` is `None`: contrary to the claim, the cap-exhaustion
exit does NOT retain the last round's tool-call intents (those are stored
only when a round produces tool-call intents none of which execute, which
breaks the loop before the cap). -/
theorem C3_cap_exhaustion_saves_none (model : Nat → List StreamChunk)
    (tools : List String) (loads : String → Option Json) (dumps : Json → String)
    (exec : String → String → String) (N : Nat) (hN : 1 ≤ N)
    (h : ∀ k, k < N →
      execRound tools loads exec (roundToolCalls tools loads dumps (model k)) ≠ []) :
    (streamTurn model tools loads dumps exec N).toolCallsSaved = none ∧
    (streamTurn model tools loads dumps exec N).modelCalls = N ∧
    (streamTurn model tools loads dumps exec N).content
      = concatStrings ((List.range N).map (fun k => roundContent (model k))) := by
  have h0 : ∀ k, (0 : Nat) ≤ k → k < 0 + N →
      execRound tools loads exec (roundToolCalls tools loads dumps (model k)) ≠ [] :=
    fun k hk1 hk2 => h k (by omega)
  have hmain := streamTurnLoop_all_executed model tools loads dumps exec N ⟨0, "", []⟩ h0
  have h21 : (streamTurn model tools loads dumps exec N).modelCalls = 0 + N :=
    hmain.2.1
  have h22 : (streamTurn model tools loads dumps exec N).content
      = "" ++ concatStrings ((List.range' 0 N).map (fun k => roundContent (model k))) :=
    hmain.2.2
  refine ⟨hmain.1, by rw [h21]; omega, ?_⟩
  rw [List.range_eq_range', h22]
  exact rfl

/-- C3 counterexample: with `max_iterations = 1` and a model that requests
an executable tool call every round, the loop exits via the iteration cap
right after a round that executed its tool call — and the final result's
`tool_calls_saved` is `None` rather than carrying that round's tool-call
intents as the claim states. -/
theorem C3_cap_exhaustion_counterexample :
    execRound chatTools capLoads capExec
        (roundToolCalls chatTools capLoads capDumps (capModel 0)) ≠ [] ∧
    (streamTurn capModel chatTools capLoads capDumps capExec 1).toolCallsSaved
      = none := by
  exact ⟨by decide, rfl⟩

/-- C3 witness: the amended statement at a concrete two-round run. -/
theorem C3_cap_exhaustion_saves_none_witness :
    (streamTurn capModel chatTools capLoads capDumps capExec 2).toolCallsSaved = none ∧
    (streamTurn capModel chatTools capLoads capDumps capExec 2).modelCalls = 2 ∧
    (streamTurn capModel chatTools capLoads capDumps capExec 2).content
      = concatStrings ((List.range 2).map (fun k => roundContent (capModel k))) :=
  C3_cap_exhaustion_saves_none capModel chatTools capLoads capDumps capExec 2
    (by omega)
    (fun k hk => by
      have hk0 : k = 0 ∨ k = 1 := by omega
      cases hk0 with
      | inl h0 => subst h0; decide
      | inr h1 => subst h1; decide)

/-- Helper: the fields of one accumulation step on an existing accumulator. -/
theorem stepFrag_some_fields (key : String) (a : ToolCallAcc) (f : ToolCallFragment) :
    stepFrag key (some a) f
      = ⟨if f.id ≠ "" ∧ pyStartsWith f.id "call_" = true then f.id else a.id,
         if f.name = "" then a.name else f.name,
         a.arguments ++ f.arguments⟩ := by
  unfold stepFrag
  by_cases h2 : f.id ≠ "" ∧ pyStartsWith f.id "call_" = true
  · by_cases h1 : f.name = "" <;> simp [h1, h2]
  · by_cases h1 : f.name = "" <;> simp [h1, h2]

/-- Helper: the accumulator created by the first fragment of an index. -/
theorem stepFrag_none_fields (key : String) (f : ToolCallFragment) :
    stepFrag key none f
      = ⟨if f.id = "" then key else f.id, f.name, f.arguments⟩ := by
  unfold stepFrag
  by_cases h2 : f.id ≠ "" ∧ pyStartsWith f.id "call_" = true
  · by_cases h1 : f.name = "" <;> simp [h1, h2, h2.1, strEmptyAppend]
  · by_cases h1 : f.name = "" <;> simp [h1, h2, strEmptyAppend]

/-- Helper: folding onto a running accumulator concatenates all argument
pieces in arrival order. -/
theorem reassembleFold_arguments (key : String) :
    ∀ (fs : List ToolCallFragment) (a : ToolCallAcc),
      (reassembleFold key a fs).arguments
        = a.arguments ++ concatStrings (fs.map (·.arguments)) := by
  intro fs
  induction fs with
  | nil => intro a; exact (strAppendEmpty a.arguments).symm
  | cons f fs ih =>
    intro a
    show (reassembleFold key (stepFrag key (some a) f) fs).arguments = _
    rw [ih, stepFrag_some_fields]
    show (a.arguments ++ f.arguments) ++ _ = _
    rw [String.append_assoc]
    rfl

/-- Helper: a non-empty name, once present, is preserved by every further
fragment of the same logical call. -/
theorem reassembleFold_name_keep (key n : String) :
    ∀ (fs : List ToolCallFragment) (a : ToolCallAcc),
      (∀ f ∈ fs, f.name = "" ∨ f.name = n) → a.name = n →
      (reassembleFold key a fs).name = n := by
  intro fs
  induction fs with
  | nil => intro a _ ha; exact ha
  | cons f fs ih =>
    intro a hall ha
    show (reassembleFold key (stepFrag key (some a) f) fs).name = n
    refine ih _ (fun g hg => hall g (List.mem_cons_of_mem _ hg)) ?_
    rw [stepFrag_some_fields]
    show (if f.name = "" then a.name else f.name) = n
    by_cases he : f.name = ""
    · rw [if_pos he]; exact ha
    · rw [if_neg he]
      rcases hall f (List.mem_cons_self _ _) with h | h
      · exact absurd h he
      · exact h

/-- Helper: a fragment carrying the name sets it for good. -/
theorem reassembleFold_name_hit (key n : String) (hn : n ≠ "") :
    ∀ (fs : List ToolCallFragment) (a : ToolCallAcc),
      (∀ f ∈ fs, f.name = "" ∨ f.name = n) → (∃ f ∈ fs, f.name = n) →
      (reassembleFold key a fs).name = n := by
  intro fs
  induction fs with
  | nil => intro a _ hex; exact absurd hex (by simp)
  | cons f fs ih =>
    intro a hall hex
    show (reassembleFold key (stepFrag key (some a) f) fs).name = n
    by_cases hf : f.name = n
    · refine reassembleFold_name_keep key n fs _
        (fun g hg => hall g (List.mem_cons_of_mem _ hg)) ?_
      rw [stepFrag_some_fields]
      show (if f.name = "" then a.name else f.name) = n
      have hne' : ¬ f.name = "" := by rw [hf]; exact hn
      rw [if_neg hne']
      exact hf
    · have hex' : ∃ g ∈ fs, g.name = n := by
        rcases hex with ⟨g, hg, hgn⟩
        rcases List.mem_cons.mp hg with h | h
        · exact absurd (h ▸ hgn) hf
        · exact ⟨g, h, hgn⟩
      exact ih _ (fun g hg => hall g (List.mem_cons_of_mem _ hg)) hex'

/-- Helper: when every fragment id is empty or equals `i`, an accumulator
id already equal to `i` stays `i` (whether or not the overwrite fires). -/
theorem reassembleFold_id_keep (key i : String) :
    ∀ (fs : List ToolCallFragment) (a : ToolCallAcc),
      (∀ f ∈ fs, f.id = "" ∨ f.id = i) → a.id = i →
      (reassembleFold key a fs).id = i := by
  intro fs
  induction fs with
  | nil => intro a _ ha; exact ha
  | cons f fs ih =>
    intro a hall ha
    show (reassembleFold key (stepFrag key (some a) f) fs).id = i
    refine ih _ (fun g hg => hall g (List.mem_cons_of_mem _ hg)) ?_
    rw [stepFrag_some_fields]
    show (if f.id ≠ "" ∧ pyStartsWith f.id "call_" = true then f.id else a.id) = i
    by_cases hc : f.id ≠ "" ∧ pyStartsWith f.id "call_" = true
    · rw [if_pos hc]
      rcases hall f (List.mem_cons_self _ _) with h | h
      · exact absurd h hc.1
      · exact h
    · rw [if_neg hc]; exact ha

/-- Helper: when every fragment id is empty, the initial id survives. -/
theorem reassembleFold_id_keep_empty (key : String) :
    ∀ (fs : List ToolCallFragment) (a : ToolCallAcc),
      (∀ f ∈ fs, f.id = "") →
      (reassembleFold key a fs).id = a.id := by
  intro fs
  induction fs with
  | nil => intro a _; rfl
  | cons f fs ih =>
    intro a hall
    show (reassembleFold key (stepFrag key (some a) f) fs).id = a.id
    rw [ih _ (fun g hg => hall g (List.mem_cons_of_mem _ hg)), stepFrag_some_fields]
    show (if f.id ≠ "" ∧ pyStartsWith f.id "call_" = true then f.id else a.id) = a.id
    have hf := hall f (List.mem_cons_self _ _)
    rw [if_neg (fun hc => hc.1 hf)]

/-- Helper: a fragment carrying a `call_`-prefixed id sets it for good. -/
theorem reassembleFold_id_hit (key i : String)
    (hi : pyStartsWith i "call_" = true) (hne : i ≠ "") :
    ∀ (fs : List ToolCallFragment) (a : ToolCallAcc),
      (∀ f ∈ fs, f.id = "" ∨ f.id = i) → (∃ f ∈ fs, f.id = i) →
      (reassembleFold key a fs).id = i := by
  intro fs
  induction fs with
  | nil => intro a _ hex; exact absurd hex (by simp)
  | cons f fs ih =>
    intro a hall hex
    show (reassembleFold key (stepFrag key (some a) f) fs).id = i
    by_cases hf : f.id = i
    · refine reassembleFold_id_keep key i fs _
        (fun g hg => hall g (List.mem_cons_of_mem _ hg)) ?_
      rw [stepFrag_some_fields]
      show (if f.id ≠ "" ∧ pyStartsWith f.id "call_" = true then f.id else a.id) = i
      have hc : f.id ≠ "" ∧ pyStartsWith f.id "call_" = true := by
        constructor
        · rw [hf]; exact hne
        · rw [hf]; exact hi
      rw [if_pos hc]
      exact hf
    · have hex' : ∃ g ∈ fs, g.id = i := by
        rcases hex with ⟨g, hg, hgn⟩
        rcases List.mem_cons.mp hg with h | h
        · exact absurd (h ▸ hgn) hf
        · exact ⟨g, h, hgn⟩
      exact ih _ (fun g hg => hall g (List.mem_cons_of_mem _ hg)) hex'

/-- Helper: the folding function of `reassemble` keeps the accumulator in
the `some` state. -/
theorem reassemble_foldl_some (key : String) :
    ∀ (fs : List ToolCallFragment) (a : ToolCallAcc),
      List.foldl (fun acc? f => some (stepFrag key acc? f)) (some a) fs
        = some (reassembleFold key a fs) := by
  intro fs
  induction fs with
  | nil => intro a; rfl
  | cons f fs ih => intro a; exact ih (stepFrag key (some a) f)

/-- Helper: reassembly of a non-empty fragment list. -/
theorem reassemble_cons (key : String) (f : ToolCallFragment)
    (fs : List ToolCallFragment) :
    reassemble key (f :: fs)
      = some (reassembleFold key (stepFrag key none f) fs) := by
  show List.foldl _ (some (stepFrag key none f)) fs = _
  exact reassemble_foldl_some key fs (stepFrag key none f)

/-- Helper: reassembly of a single-fragment delivery. -/
theorem reassemble_single (key : String) (f : ToolCallFragment) :
    reassemble key [f]
      = some ⟨if f.id = "" then key else f.id, f.name, f.arguments⟩ := by
  rw [reassemble_cons, stepFrag_none_fields]
  rfl

/-- C5 (amended): reassembly is chunking-invariant — any split of a
logical call into 1..N fragments (argument pieces concatenating in arrival
order, name and id carried whole by arbitrary fragments) reassembles to
the single-fragment delivery — PROVIDED the provider call id is empty or
starts with the `"call_"` placeholder-distinguishing prefix.  (Without
that proviso it fails: see the counterexample, where a vLLM-style id
arriving after the first fragment is dropped.) -/
theorem C5_chunking_invariance (key : String) (c : LogicalToolCall)
    (frags : List ToolCallFragment)
    (hid : c.id = "" ∨ pyStartsWith c.id "call_" = true)
    (hsplit : IsSplit c frags) :
    reassemble key frags = reassemble key [singleFragment c] := by
  obtain ⟨hne, hargs, hnameAll, hnameEx, hidAll, hidEx⟩ := hsplit
  cases frags with
  | nil => exact absurd rfl hne
  | cons f fs =>
    rw [reassemble_single, reassemble_cons]
    have hA : (reassembleFold key (stepFrag key none f) fs).arguments
        = c.arguments := by
      rw [reassembleFold_arguments, stepFrag_none_fields]
      exact hargs
    have hfhead := hnameAll f (List.mem_cons_self _ _)
    have hN : (reassembleFold key (stepFrag key none f) fs).name = c.name := by
      by_cases hf : f.name = c.name
      · refine reassembleFold_name_keep key c.name fs _
          (fun g hg => hnameAll g (List.mem_cons_of_mem _ hg)) ?_
        rw [stepFrag_none_fields]
        exact hf
      · have hfe : f.name = "" := by
          rcases hfhead with h | h
          · exact h
          · exact absurd h hf
        have hcne : c.name ≠ "" := by
          intro hc
          exact hf (hfe.trans hc.symm)
        have hex' : ∃ g ∈ fs, g.name = c.name := by
          rcases hnameEx hcne with ⟨g, hg, hgn⟩
          rcases List.mem_cons.mp hg with h | h
          · exact absurd (h ▸ hgn) hf
          · exact ⟨g, h, hgn⟩
        exact reassembleFold_name_hit key c.name hcne fs _
          (fun g hg => hnameAll g (List.mem_cons_of_mem _ hg)) hex'
    have hI : (reassembleFold key (stepFrag key none f) fs).id
        = if c.id = "" then key else c.id := by
      rcases hid with hid0 | hidp
      · have hall0 : ∀ g ∈ f :: fs, g.id = "" := by
          intro g hg
          rcases hidAll g hg with h | h
          · exact h
          · exact h.trans hid0
        rw [reassembleFold_id_keep_empty key fs _
              (fun g hg => hall0 g (List.mem_cons_of_mem _ hg)),
            stepFrag_none_fields]
        simp [hall0 f (List.mem_cons_self _ _), hid0]
      · have hcne : c.id ≠ "" := by
          intro hc
          rw [hc] at hidp
          exact absurd hidp (by decide)
        rw [if_neg hcne]
        by_cases hf : f.id = c.id
        · refine reassembleFold_id_keep key c.id fs _
            (fun g hg => hidAll g (List.mem_cons_of_mem _ hg)) ?_
          rw [stepFrag_none_fields]
          rw [hf, if_neg hcne]
        · have hfe : f.id = "" := by
            rcases hidAll f (List.mem_cons_self _ _) with h | h
            · exact h
            · exact absurd h hf
          have hex' : ∃ g ∈ fs, g.id = c.id := by
            rcases hidEx hcne with ⟨g, hg, hgn⟩
            rcases List.mem_cons.mp hg with h | h
            · exact absurd (h ▸ hgn) hf
            · exact ⟨g, h, hgn⟩
          exact reassembleFold_id_hit key c.id hidp hcne fs _
            (fun g hg => hidAll g (List.mem_cons_of_mem _ hg)) hex'
    congr 1
    calc reassembleFold key (stepFrag key none f) fs
        = ⟨(reassembleFold key (stepFrag key none f) fs).id,
           (reassembleFold key (stepFrag key none f) fs).name,
           (reassembleFold key (stepFrag key none f) fs).arguments⟩ := rfl
      _ = _ := by rw [hA, hN, hI]; rfl

/-- C5 counterexample: a genuine split of a logical call whose provider id
does not start with `"call_"` (vLLM emits ids like `chatcmpl-tool-...`)
and arrives only on the second fragment reassembles differently from the
single-fragment delivery: the initializer `tc_id or key` (line 97) accepts
ANY non-empty id on the first fragment, but a later fragment's id is taken
only `if tc_id.startswith("call_")` (line 101), so the id collapses to the
placeholder `idx_0`. -/
theorem C5_chunking_counterexample :
    IsSplit lateIdCall lateIdFrags ∧
    reassemble "idx_0" lateIdFrags ≠ reassemble "idx_0" [singleFragment lateIdCall] := by
  constructor
  · refine ⟨by decide, by decide, ?_, ?_, ?_, ?_⟩ <;> decide
  · decide

/-- C5 witness: the amended invariance at a concrete `"call_"`-prefixed
split. -/
theorem C5_chunking_invariance_witness :
    (okCall.id = "" ∨ pyStartsWith okCall.id "call_" = true) ∧
    IsSplit okCall okFrags ∧
    reassemble "idx_0" okFrags = reassemble "idx_0" [singleFragment okCall] :=
  ⟨Or.inr (by decide),
   ⟨by decide, by decide, by decide, by decide, by decide, by decide⟩,
   C5_chunking_invariance "idx_0" okCall okFrags (Or.inr (by decide))
     ⟨by decide, by decide, by decide, by decide, by decide, by decide⟩⟩

/-- Helper: a blank input unwraps to the empty string. -/
theorem unwrapDelims_blank (content : String) (h : pyStrip content = "") :
    unwrapDelims content = "" := by
  unfold unwrapDelims
  rw [h]
  rfl

/-- C7: the fallback call detector is total (the embedding returns `none`
where the Python returns `None`; the only `json` calls are inside the
guarded `try`), and it returns a call EXACTLY when the input, after
whitespace stripping and unwrapping one tag layer and one fence layer
(`unwrapDelims`), is a single JSON object — brace-delimited and parsed by
`json.loads` — whose `name` value is a non-empty registered tool id; the
returned call then carries that name, the `arguments` mapping
(object re-serialized / string as-is / otherwise `"{}"`), and the
`fallback_<name>` call id. -/
theorem C7_fallback_detector (tools : List String) (loads : String → Option Json)
    (dumps : Json → String) (content : String) (c : ParsedTextToolCall) :
    tryParseTextToolCall tools loads dumps content = some c ↔
      ∃ fields name,
        pyStartsWith (unwrapDelims content) "\x7b" = true ∧
        pyEndsWith (unwrapDelims content) "\x7d" = true ∧
        loads (unwrapDelims content) = some (.obj fields) ∧
        jsonGet fields "name" = some (.str name) ∧
        name ≠ "" ∧ name ∈ tools ∧
        c = ⟨name, fallbackRawArgs dumps (jsonGet fields "arguments"),
             "fallback_" ++ name⟩ := by
  by_cases hblank : content = "" ∨ pyStrip content = ""
  · have hs : pyStrip content = "" := by
      rcases hblank with h | h
      · rw [h]; rfl
      · exact h
    have hu : unwrapDelims content = "" := unwrapDelims_blank content hs
    simp only [tryParseTextToolCall]
    rw [if_pos hblank]
    constructor
    · intro h; exact Option.noConfusion h
    · rintro ⟨fields, name, h1, -⟩
      rw [hu] at h1
      exact absurd h1 (by decide)
  · simp only [tryParseTextToolCall]
    rw [if_neg hblank]
    by_cases hbr : pyStartsWith (unwrapDelims content) "\x7b" = true
        ∧ pyEndsWith (unwrapDelims content) "\x7d" = true
    · rw [if_pos hbr]
      cases hl : loads (unwrapDelims content) with
      | none =>
        constructor
        · intro h; exact Option.noConfusion h
        · rintro ⟨fields, name, -, -, h3, -⟩
          exact Option.noConfusion h3
      | some j =>
        cases j with
        | obj fields =>
          dsimp only
          cases hn : jsonGet fields "name" with
          | none =>
            constructor
            · intro h; exact Option.noConfusion h
            · rintro ⟨fields2, name2, -, -, h3, h4, -⟩
              injection h3 with h3a
              injection h3a with h3b
              subst h3b
              rw [hn] at h4
              exact Option.noConfusion h4
          | some v =>
            cases v with
            | str name =>
              dsimp only
              by_cases hname0 : name = ""
              · rw [if_pos hname0]
                constructor
                · intro h; exact Option.noConfusion h
                · rintro ⟨fields2, name2, -, -, h3, h4, h5, -⟩
                  injection h3 with h3a
                  injection h3a with h3b
                  subst h3b
                  rw [hn] at h4
                  injection h4 with h4a
                  injection h4a with h4b
                  exact absurd (h4b.symm.trans hname0) h5
              · rw [if_neg hname0]
                by_cases htool : name ∈ tools
                · rw [if_pos htool]
                  constructor
                  · intro h
                    injection h with hc
                    exact ⟨fields, name, hbr.1, hbr.2, rfl, hn, hname0, htool, hc.symm⟩
                  · rintro ⟨fields2, name2, -, -, h3, h4, -, -, h7⟩
                    injection h3 with h3a
                    injection h3a with h3b
                    subst h3b
                    rw [hn] at h4
                    injection h4 with h4a
                    injection h4a with h4b
                    subst h4b
                    rw [h7]
                · rw [if_neg htool]
                  constructor
                  · intro h; exact Option.noConfusion h
                  · rintro ⟨fields2, name2, -, -, h3, h4, -, h6, -⟩
                    injection h3 with h3a
                    injection h3a with h3b
                    subst h3b
                    rw [hn] at h4
                    injection h4 with h4a
                    injection h4a with h4b
                    subst h4b
                    exact absurd h6 htool
            | null =>
              constructor
              · intro h; exact Option.noConfusion h
              · rintro ⟨fields2, name2, -, -, h3, h4, -⟩
                injection h3 with h3a
                injection h3a with h3b
                subst h3b
                rw [hn] at h4
                injection h4 with h4a
                exact Json.noConfusion h4a
            | bool b =>
              constructor
              · intro h; exact Option.noConfusion h
              · rintro ⟨fields2, name2, -, -, h3, h4, -⟩
                injection h3 with h3a
                injection h3a with h3b
                subst h3b
                rw [hn] at h4
                injection h4 with h4a
                exact Json.noConfusion h4a
            | num n =>
              constructor
              · intro h; exact Option.noConfusion h
              · rintro ⟨fields2, name2, -, -, h3, h4, -⟩
                injection h3 with h3a
                injection h3a with h3b
                subst h3b
                rw [hn] at h4
                injection h4 with h4a
                exact Json.noConfusion h4a
            | arr elems =>
              constructor
              · intro h; exact Option.noConfusion h
              · rintro ⟨fields2, name2, -, -, h3, h4, -⟩
                injection h3 with h3a
                injection h3a with h3b
                subst h3b
                rw [hn] at h4
                injection h4 with h4a
                exact Json.noConfusion h4a
            | obj fields3 =>
              constructor
              · intro h; exact Option.noConfusion h
              · rintro ⟨fields2, name2, -, -, h3, h4, -⟩
                injection h3 with h3a
                injection h3a with h3b
                subst h3b
                rw [hn] at h4
                injection h4 with h4a
                exact Json.noConfusion h4a
        | null =>
          constructor
          · intro h; exact Option.noConfusion h
          · rintro ⟨fields2, name2, -, -, h3, -⟩
            injection h3 with h3a
            exact Json.noConfusion h3a
        | bool b =>
          constructor
          · intro h; exact Option.noConfusion h
          · rintro ⟨fields2, name2, -, -, h3, -⟩
            injection h3 with h3a
            exact Json.noConfusion h3a
        | num n =>
          constructor
          · intro h; exact Option.noConfusion h
          · rintro ⟨fields2, name2, -, -, h3, -⟩
            injection h3 with h3a
            exact Json.noConfusion h3a
        | str s =>
          constructor
          · intro h; exact Option.noConfusion h
          · rintro ⟨fields2, name2, -, -, h3, -⟩
            injection h3 with h3a
            exact Json.noConfusion h3a
        | arr elems =>
          constructor
          · intro h; exact Option.noConfusion h
          · rintro ⟨fields2, name2, -, -, h3, -⟩
            injection h3 with h3a
            exact Json.noConfusion h3a
    · rw [if_neg hbr]
      constructor
      · intro h; exact Option.noConfusion h
      · rintro ⟨fields, name, h1, h2, -⟩
        exact absurd ⟨h1, h2⟩ hbr

end AiNotes
